import Mathlib

/-!
Verification model of restament (src/index.ts), a declarative REST-API
test-assertion helper.  The definitions below are a shallow embedding of the
TypeScript source: JS runtime values are modelled by `JSVal`/`Json`, the
per-field expectation of `assertDB` by `Expected`, body construction by
`genReqBody`, and the per-test-case pipeline of `test()` by
`dispatchPhase`/`responsePhase`/`runTest`.  External collaborators (database,
filesystem, image diff, HTTP, `JSON.parse`) are oracles supplied as inputs.
-/

/-- Primitive JS value as it appears in a database row cell, a request-data
field or a comparison inside `assertDB`.  `undefined` models JS `undefined`
(e.g. reading a missing object key). -/
inductive JSVal where
  | str (s : String)
  | num (n : Int)
  | boolean (b : Bool)
  | null
  | undefined
  deriving DecidableEq

/-- JS string coercion `String(v)` as used by `+` concatenation in error
messages and by `Array.prototype.join`. -/
def jsValToString : JSVal → String
  | .str s => s
  | .num n => toString n
  | .boolean b => if b then ("true") else ("false")
  | .null => "null"
  | .undefined => "undefined"

/-- Parsed JSON document (result of `JSON.parse` on a response body, and the
shape of `test.resdata`).  Object fields are kept in source order. -/
inductive Json where
  | null
  | bool (b : Bool)
  | num (n : Int)
  | str (s : String)
  | arr (elems : List Json)
  | obj (fields : List (String × Json))

mutual

/-- Structural deep equality on parsed JSON, modelling
`assert.deepStrictEqual(response.json, test.resdata)` (src line 212).
Key order inside objects is compared positionally; the claims settled here
only exercise scalar comparisons. -/
def jsonBeq : Json → Json → Bool
  | .null, .null => true
  | .bool a, .bool b => a == b
  | .num a, .num b => a == b
  | .str a, .str b => a == b
  | .arr a, .arr b => jsonBeqList a b
  | .obj a, .obj b => jsonBeqObj a b
  | _, _ => false

/-- Elementwise `jsonBeq` on JSON arrays. -/
def jsonBeqList : List Json → List Json → Bool
  | [], [] => true
  | x :: xs, y :: ys => jsonBeq x y && jsonBeqList xs ys
  | _, _ => false

/-- Fieldwise `jsonBeq` on JSON objects. -/
def jsonBeqObj : List (String × Json) → List (String × Json) → Bool
  | [], [] => true
  | (k, x) :: xs, (l, y) :: ys => k == l && jsonBeq x y && jsonBeqObj xs ys
  | _, _ => false

end

/-- One database row as returned by `fetchAll().toJSON()`: a plain JS object,
modelled as an association list from column name to cell value. -/
abbrev Row := List (String × JSVal)

/-- Per-field expectation inside `result.data` (src lines 262-280 dispatch on
the runtime shape):
`lit` is a literal compared with `===`; `notValues` is the object produced by
`Restament.not(...)` (`\x7btype: "not", values: [...]\x7d`); `pred` is a test
function whose result is compared against `true`. -/
inductive Expected where
  | lit (v : JSVal)
  | notValues (values : List JSVal)
  | pred (f : JSVal → Bool)

/-- Static helper `Restament.not(...)` (src lines 34-45): collects its
arguments into the `values` array of a not-object. -/
def Restament.not (values : List JSVal) : Expected :=
  Expected.notValues values

/-- One expected row of `result.data`: the keys enumerated by
`Object.getOwnPropertyNames`, in insertion order, each with its expectation. -/
abbrev ExpectedRow := List (String × Expected)

/-- JS strict equality `expectedColumnData.values === actualColumnData`
(src line 263).  `values` is the argument `Array` of `not(...)` — an object
compared by reference — while the actual cell value coming out of a SQL row's
JSON is a primitive, so this comparison is `false` whatever the array holds. -/
def valuesArrayStrictEq (values : List JSVal) (actual : JSVal) : Bool :=
  false

/-- Property read `records[i][key]`: a missing key yields JS `undefined`. -/
def getField (r : Row) (key : String) : JSVal :=
  match r.lookup key with
  | some v => v
  | none => .undefined

/-- Numeric `id` of a fetched row, as consumed by the sort comparator
`record1.id - record2.id` (src lines 249-251).  The claims below quantify over
rows carrying pairwise-distinct numeric ids; rows without a numeric `id`
(where the JS comparator would return `NaN`) default to `0` here. -/
def rowId (r : Row) : Int :=
  match r.lookup ("id") with
  | some (.num n) => n
  | _ => 0

/-- Sort of the fetched records ascending by numeric `id`
(`.sort((record1, record2) => record1.id - record2.id)`, src lines 248-251). -/
def sortById (records : List Row) : List Row :=
  List.insertionSort (fun r1 r2 => rowId r1 ≤ rowId r2) records

/-- Check of a single field of row `i` (src lines 259-280).  Returns `none`
when the check passes and the rejection message otherwise. -/
def checkField (i : Nat) (key : String) (expected : Expected) (actual : JSVal) :
    Option String :=
  match expected with
  | .notValues values =>
    if valuesArrayStrictEq values actual then
      some ("Assertion Error: data[" ++ toString i ++ "][" ++ key ++
        "] is expected NOT to be \x27" ++ joinStrings values ++ "\x27")
    else
      none
  | .pred f =>
    if f actual then
      none
    else
      some ("Assertion Error: data[" ++ toString i ++ "][" ++ key ++
        "] is expected to pass test function but actual data \x27" ++
        jsValToString actual ++ "\x27 didn\x27t pass")
  | .lit v =>
    if v = actual then
      none
    else
      some ("Assertion Error: data[" ++ toString i ++ "][" ++ key ++
        "] is expected to be \x27" ++ jsValToString v ++ "\x27 but actually \x27" ++
        jsValToString actual ++ "\x27")
where
  /-- JS `String(array)`: elements coerced to string and comma-joined. -/
  joinStrings (vs : List JSVal) : String :=
    String.intercalate (",") (vs.map jsValToString)

/-- Inner loop over the keys of expected row `i`
(`for (const key of Object.getOwnPropertyNames(table.result.data[i]))`,
src line 258), short-circuiting on the first failing field. -/
def checkRow (i : Nat) : ExpectedRow → Row → Option String
  | [], _ => none
  | (key, expected) :: rest, r =>
    match checkField i key expected (getField r key) with
    | some msg => some msg
    | none => checkRow i rest r

/-- Outcome of the row assertion of one table: `pass` resolves, `fail`
rejects with an assertion message, `crash` is the JS `TypeError` thrown by
`Object.getOwnPropertyNames(undefined)` when `table.result.data[i]` is read
past the end of the expected-row array. -/
inductive AssertOutcome where
  | pass
  | fail (msg : String)
  | crash
  deriving DecidableEq

/-- Outer loop `for (let i = 0; i < records.length; i++)` (src line 257) over
the sorted fetched records, indexing the expected rows positionally with no
bounds check. -/
def checkRows (expected : List ExpectedRow) : Nat → List Row → AssertOutcome
  | _, [] => .pass
  | i, r :: rs =>
    match expected[i]? with
    | none => .crash
    | some e =>
      match checkRow i e r with
      | some msg => .fail msg
      | none => checkRows expected (i + 1) rs

/-- Row assertion of one table with `result.data` present (src lines 246-285):
fetch, sort ascending by numeric id, then zip positionally against the
expected rows.  `expectedData` is already normalized to an array
(src lines 253-255 wrap a single map into `[map]`). -/
def assertTable (expectedData : List ExpectedRow) (records : List Row) :
    AssertOutcome :=
  checkRows expectedData 0 (sortById records)

/-- Mock fixture of one table (`TableSpec.mock`): rows to insert (already
normalized to an array, src lines 391-393) and optional upload-staging
instructions `\x7bsrc, dest\x7d`. -/
structure Mock where
  data : List Row
  uploads : Option (List (String × String))

/-- Expectation of one table (`TableSpec.result`): optional expected rows and
optional expected uploaded files `\x7bfilename, original\x7d`. -/
structure TableResult where
  data : Option (List ExpectedRow)
  uploads : Option (List (String × String))

/-- One entry of `test.db` after normalization to an array (src lines
102-104). -/
structure DBTable where
  tablename : String
  mock : Option Mock
  result : Option TableResult

/-- External collaborators, supplied as oracles: row insertion
(`new dbtable.table(record).save`), `fs.copy`, `fetchAll().toJSON()`,
`image-diff` and `fs.existsSync`. -/
structure Collab where
  insert : String → Row → Except String Unit
  copyFile : String → String → Except String Unit
  fetchAll : String → List Row
  imageSame : String → String → Bool
  fileExists : String → Bool

/-- Constructor configuration (src lines 62-88); only the fields the test
pipeline reads are modelled. -/
structure Config where
  endpoint : String
  uploadDir : String
  logDir : String

/-- JS truthiness of a configuration string (`!self.config.uploadDir`):
the empty string is falsy. -/
def truthy (s : String) : Bool :=
  !(s == "")

/-- Node `path.join` restricted to the two-segment form used by the source. -/
def pathJoin (a b : String) : String :=
  a ++ "/" ++ b

/-- Row assertion of one table (src lines 241-245): tables without `result`
or without `result.data` are skipped entirely. -/
def assertDB_table (c : Collab) (t : DBTable) : AssertOutcome :=
  match t.result with
  | none => .pass
  | some res =>
    match res.data with
    | none => .pass
    | some data => assertTable data (c.fetchAll t.tablename)

/-- Row assertion over all tables (`Promise.all(dbtables.map(...))`,
src line 241): the first non-passing table in list order decides the
rejection. -/
def assertDB (c : Collab) : List DBTable → AssertOutcome
  | [] => .pass
  | t :: ts =>
    match assertDB_table c t with
    | .pass => assertDB c ts
    | r => r

/-- Check of one `\x7bfilename, original\x7d` expected-upload pair
(src lines 305-349): image equivalence via the external diff tool, with the
four-way message on mismatch.  The diagnostic copies (side effects) are not
modelled. -/
def checkUploadPair (cfg : Config) (c : Collab) (filename original : String) :
    Option String :=
  let uploadedFileName := pathJoin cfg.uploadDir filename
  if c.imageSame uploadedFileName original then
    none
  else
    let uploadedFileExists := c.fileExists uploadedFileName
    let originalExists := c.fileExists original
    if !uploadedFileExists && !originalExists then
      some ("Assertion Error: uploaded file \x27" ++ uploadedFileName ++
        "\x27 and original file \x27" ++ original ++ "\x27 doesn\x27t exist!")
    else if !uploadedFileExists then
      some ("Assertion Error: uploaded file \x27" ++ uploadedFileName ++
        "\x27 doesn\x27t exist!")
    else if !originalExists then
      some ("Assertion Error: \x27" ++ original ++ "\x27 doesn\x27t exist!")
    else
      some ("Assertion Error: uploaded file \x27" ++ uploadedFileName ++
        "\x27 and original file \x27" ++ original ++
        "\x27 are expected to be the same, but they differs.")

/-- Sequential model of the `forEach` over `table.result.uploads`
(src line 305), first failure wins. -/
def checkUploadList (cfg : Config) (c : Collab) :
    List (String × String) → Option String
  | [] => none
  | p :: ps =>
    match checkUploadPair cfg c p.1 p.2 with
    | some msg => some msg
    | none => checkUploadList cfg c ps

/-- Upload assertion of one table (src lines 298-304): skipped without
`result` or `result.uploads`. -/
def assertUploads_table (cfg : Config) (c : Collab) (t : DBTable) :
    Option String :=
  match t.result with
  | none => none
  | some res =>
    match res.uploads with
    | none => none
    | some ups => checkUploadList cfg c ups

/-- Upload assertion over all tables (src line 295). -/
def assertUploads (cfg : Config) (c : Collab) : List DBTable → Option String
  | [] => none
  | t :: ts =>
    match assertUploads_table cfg c t with
    | some msg => some msg
    | none => assertUploads cfg c ts

/-- Fixture seeding `createMock` (src lines 381-420).  The source maps each
table to `Promise.all(procs)` but DISCARDS the mapped array — the enclosing
`async` function resolves with `undefined` immediately.  The first component
lists the promises the call starts (insertions in `mock.data` order, then the
`fs.copy` stagings); the second component is the value `await
self.createMock(dbtables)` actually observes, which is `ok` regardless of the
started promises.  (The source's `procs.concat(procs, ...)` lists the same
promise objects twice; each underlying effect is started once and appears
once here.) -/
def createMock (cfg : Config) (c : Collab) (dbtables : List DBTable) :
    List (Except String Unit) × Except String Unit :=
  (dbtables.flatMap (fun dbtable =>
    (match dbtable.mock with
     | none => []
     | some m => m.data.map (fun record => c.insert dbtable.tablename record)) ++
    (match dbtable.mock with
     | none => []
     | some m =>
       match m.uploads with
       | none => []
       | some ups =>
         ups.map (fun u => c.copyFile u.1 (pathJoin cfg.uploadDir u.2)))),
   Except.ok ())

/-- Value of one `reqdata` entry: a scalar or a JS array of scalars. -/
inductive ReqValue where
  | scalar (v : JSVal)
  | arr (vs : List JSVal)

/-- Request data map (`test.reqdata`), keys in `Object.keys` order. -/
abbrev ReqData := List (String × ReqValue)

/-- JS `array.join (",")`: elements coerced to string, comma-separated
(src line 470). -/
def joinComma (vs : List JSVal) : String :=
  String.intercalate (",") (vs.map jsValToString)

/-- One part appended to the `FormData` body: a plain field value or a file
stream from `fs.createReadStream` (src lines 470 and 475). -/
inductive FormPart where
  | field (v : JSVal)
  | fileStream (filePath : String)
  deriving DecidableEq

/-- Request body returned by `genReqBody`: a `FormData` object or a JSON
string. -/
inductive ReqBody where
  | form (parts : List (String × FormPart))
  | jsonBody (s : String)
  deriving DecidableEq

/-- Value appended for one `reqdata` entry in the FORM branch (src line 470):
`Array.isArray(reqdata[key]) ? reqdata[key].join (",") : reqdata[key]`. -/
def formEncodeValue : ReqValue → FormPart
  | .arr vs => .field (.str (joinComma vs))
  | .scalar v => .field v

/-- Double-quoted JSON string (escape sequences inside the text are not
modelled; the branch using this is proved unreachable below). -/
def jsonQuote (s : String) : String :=
  "\"" ++ s ++ "\""

/-- JSON literal for one scalar (`JSON.stringify` leaf case; `undefined`
values, which `JSON.stringify` would drop, serialize as `null` here — the
branch is unreachable, see `reqformat_json_rejected`). -/
def stringifyScalar : JSVal → String
  | .str s => jsonQuote s
  | .num n => toString n
  | .boolean b => if b then ("true") else ("false")
  | .null => "null"
  | .undefined => "null"

/-- JSON literal for one `reqdata` value. -/
def stringifyReqValue : ReqValue → String
  | .scalar v => stringifyScalar v
  | .arr vs => "[" ++ String.intercalate (",") (vs.map stringifyScalar) ++ "]"

/-- Model of `JSON.stringify(reqdata)` (src line 485). -/
def jsonStringifyReqData (d : ReqData) : String :=
  "\x7b" ++
    String.intercalate (",")
      (d.map (fun kv => jsonQuote kv.1 ++ ":" ++ stringifyReqValue kv.2)) ++
  "\x7d"

/-- Argument object of `genReqBody` (src lines 186-191): the raw strings of
the test case, with `reqdata`/`uploads` possibly `undefined`. -/
structure GenOpts where
  method : String
  reqdata : Option ReqData
  reqformat : String
  uploads : Option (List (String × String))

/-- Error message of the internal GET guard of `genReqBody`
(src lines 438-440). -/
def getBugMessage : String :=
  "This should be restament\x27s bug!\nThis method should not run when requesting in GET. Users should add parameters in URL."

/-- Request-body builder `genReqBody` (src lines 432-487), including its
validation chain.  NOTE the faithful reproduction of src line 456: the
reqformat validation tests `opts.method === "JSON"` — not `opts.reqformat` —
so it is written `opts.method = "JSON"` here as well. -/
def genReqBody (opts : GenOpts) : Except String ReqBody :=
  if opts.method = "GET" then
    Except.error getBugMessage
  else if ¬(opts.method = "POST" ∨ opts.method = "PUT" ∨ opts.method = "PATCH" ∨
      opts.method = "DELETE" ∨ opts.method = "HEAD" ∨ opts.method = "OPTIONS" ∨
      opts.method = "CONNECT") then
    Except.error ("Argument opts.method is undefined")
  else
    match opts.reqdata with
    | none => Except.error ("Argument opts.reqdata is undefined")
    | some reqdata =>
      if ¬(opts.reqformat = "FORM" ∨ opts.method = "JSON") then
        Except.error ("Argument opts.reqformat must be FORM or JSON")
      else if opts.reqformat = "FORM" then
        let fields := reqdata.map (fun kv => (kv.1, formEncodeValue kv.2))
        let uploadParts :=
          if opts.method = "POST" ∨ opts.method = "PUT" then
            match opts.uploads with
            | some ups => ups.map (fun kv => (kv.1, FormPart.fileStream kv.2))
            | none => []
          else []
        Except.ok (ReqBody.form (fields ++ uploadParts))
      else
        match opts.uploads with
        | some _ => Except.error ("Cannot upload files with data in JSON format")
        | none => Except.ok (ReqBody.jsonBody (jsonStringifyReqData reqdata))

/-- HTTP method enum (src lines 13-22). -/
inductive HttpMethod where
  | GET
  | POST
  | PUT
  | PATCH
  | DELETE
  | HEAD
  | OPTIONS
  | CONNECT
  deriving DecidableEq

/-- Request format enum (src lines 24-27). -/
inductive RequestFormat where
  | Form
  | JSON
  deriving DecidableEq

/-- Mapping of `test.reqformat` to the enum (src lines 143-152), throwing on
anything but FORM or JSON. -/
def parseReqformat (s : String) : Except String RequestFormat :=
  match s with
  | "FORM" => Except.ok RequestFormat.Form
  | "JSON" => Except.ok RequestFormat.JSON
  | other =>
    Except.error ("reqformat only supports FORM and JSON; \x27" ++ other ++
      "\x27is not supported")

/-- Mapping of `test.method` to the enum (src lines 154-181), throwing on an
unrecognized method. -/
def parseMethod (s : String) : Except String HttpMethod :=
  match s with
  | "GET" => Except.ok HttpMethod.GET
  | "POST" => Except.ok HttpMethod.POST
  | "PUT" => Except.ok HttpMethod.PUT
  | "PATCH" => Except.ok HttpMethod.PATCH
  | "DELETE" => Except.ok HttpMethod.DELETE
  | "HEAD" => Except.ok HttpMethod.HEAD
  | "OPTIONS" => Except.ok HttpMethod.OPTIONS
  | "CONNECT" => Except.ok HttpMethod.CONNECT
  | other =>
    Except.error ("method \x27" ++ other ++ "\x27is not a HTTP method")

/-- One declarative test case, with `db` already normalized to an array
(src lines 102-104) and optional keys as `Option`.  `resdata = none` models
an absent key (`typeof test.resdata === "undefined"`); an explicit JSON
`null` expectation is `some Json.null`.  The `before`/`after` hooks carry no
claim and are not modelled. -/
structure TestCase where
  url : String
  method : String
  reqformat : String
  reqdata : Option ReqData
  uploads : Option (List (String × String))
  status : Int
  resdata : Option Json
  db : List DBTable

/-- Observed HTTP exchange for one dispatched request: the status, the raw
body text, and the result of the platform primitive `JSON.parse(body)`
(src line 517), with `none` standing for a `SyntaxError`. -/
structure HttpResponse where
  status : Int
  bodyText : String
  parsed : Option Json

/-- Terminal outcome of running one test case.  Constructors record where in
the source the run ended: `configError`/`seedError` are throws before the
HTTP call, `formatError` is the "Response body is not JSON!" rejection inside
`request` (src lines 520-524), `statusError` carries the expected and
observed status of the assertion at src lines 203-206, `resdataError` is the
body mismatch at src lines 210-217, and the remaining constructors come from
`assertDB`/`assertUploads`. -/
inductive TestResult where
  | pass
  | crash
  | configError (msg : String)
  | seedError (msg : String)
  | formatError (bodyText : String)
  | statusError (expected observed : Int)
  | resdataError
  | dbAssertFail (msg : String)
  | dbAssertCrash
  | uploadAssertFail (msg : String)
  deriving DecidableEq

/-- Precondition walk over the tables when `uploadDir` or `logDir` is falsy
(src lines 120-124): reading `dbtable.mock.uploads` crashes with a JS
`TypeError` when `mock` is absent, and throws the configuration error when
`mock.uploads` is present. -/
def precheckTables : List DBTable → Option TestResult
  | [] => none
  | t :: ts =>
    match t.mock with
    | none => some TestResult.crash
    | some m =>
      match m.uploads with
      | some _ => some (TestResult.configError
          "uploadDir and logDir must be specified in constructor when test includes mock.uploads")
      | none => precheckTables ts

/-- Guarded precondition check (src line 119): runs only when `uploadDir` or
`logDir` is falsy. -/
def uploadsPrecheck (cfg : Config) (tables : List DBTable) : Option TestResult :=
  if truthy cfg.uploadDir && truthy cfg.logDir then
    none
  else
    precheckTables tables

/-- Data of the dispatched request once every step before the HTTP call has
succeeded: `reqBody = none` is the literal `null` body of the GET path
(src line 184); `upload` is `typeof test.uploads !== "undefined"`
(src line 199). -/
structure Prepared where
  method : HttpMethod
  reqformat : RequestFormat
  reqBody : Option ReqBody
  upload : Bool

/-- Steps of `test()` for one test case up to (and excluding) the `fetch`
call (src lines 119-200): uploads precondition, awaiting `createMock` (whose
resolved value ignores the started insertions — see `createMock`), reqformat
and method translation, and body construction, in source order.  `cleanup`
and the `before` hook are external effects carrying no claim and are assumed
to succeed. -/
def dispatchPhase (cfg : Config) (c : Collab) (tc : TestCase) :
    Except TestResult Prepared :=
  match uploadsPrecheck cfg tc.db with
  | some r => Except.error r
  | none =>
    match (createMock cfg c tc.db).2 with
    | Except.error msg => Except.error (TestResult.seedError msg)
    | Except.ok _ =>
      match parseReqformat tc.reqformat with
      | Except.error msg => Except.error (TestResult.configError msg)
      | Except.ok rf =>
        match parseMethod tc.method with
        | Except.error msg => Except.error (TestResult.configError msg)
        | Except.ok m =>
          if tc.method = "GET" then
            Except.ok ⟨m, rf, none, tc.uploads.isSome⟩
          else
            match genReqBody ⟨tc.method, tc.reqdata, tc.reqformat, tc.uploads⟩ with
            | Except.error msg => Except.error (TestResult.configError msg)
            | Except.ok b => Except.ok ⟨m, rf, some b, tc.uploads.isSome⟩

/-- Combined state assertion after the response checks:
`Promise.all([assertDB, assertUploads])` (src lines 219-222), with the row
assertion deciding first in this sequential model. -/
def statePhase (cfg : Config) (c : Collab) (tc : TestCase) : TestResult :=
  match assertDB c tc.db with
  | .fail msg => TestResult.dbAssertFail msg
  | .crash => TestResult.dbAssertCrash
  | .pass =>
    match assertUploads cfg c tc.db with
    | some msg => TestResult.uploadAssertFail msg
    | none => TestResult.pass

/-- Steps of `test()` from the resolution of `request` onwards.  `request`
(src lines 489-532) records the status, reads the body text and parses it as
JSON before resolving, so a parse failure rejects the whole exchange first;
only then does `test()` compare the status (src lines 202-206) and, when
`resdata` is present, the parsed body (src lines 208-217). -/
def responsePhase (cfg : Config) (c : Collab) (tc : TestCase)
    (resp : HttpResponse) : TestResult :=
  match resp.parsed with
  | none => TestResult.formatError resp.bodyText
  | some body =>
    if resp.status ≠ tc.status then
      TestResult.statusError tc.status resp.status
    else
      match tc.resdata with
      | none => statePhase cfg c tc
      | some expected =>
        if jsonBeq body expected then
          statePhase cfg c tc
        else
          TestResult.resdataError

/-- Full run of one test case (the body of the `for` loop of `test()`,
src lines 97-231): the observed HTTP exchange `resp` is consumed only when
every step before the `fetch` call succeeded. -/
def runTest (cfg : Config) (c : Collab) (resp : HttpResponse)
    (tc : TestCase) : TestResult :=
  match dispatchPhase cfg c tc with
  | Except.error r => r
  | Except.ok _ => responsePhase cfg c tc resp

/-- Configuration with every directory present (all strings truthy). -/
def cfgOk : Config :=
  ⟨"http://localhost:10999", "/tmp/build/api/storage", "/tmp/logs"⟩

/-- All-succeeding collaborators: insertions and copies resolve, tables are
empty, images always match, files exist. -/
def collabOk : Collab :=
  ⟨fun _ _ => Except.ok (), fun _ _ => Except.ok (), fun _ => [],
   fun _ _ => true, fun _ => true⟩

/-- Table entry with a present-but-empty mock and no expectation. -/
def trivialTable : DBTable :=
  ⟨"items", some ⟨[], none⟩, none⟩

/-- GET test case with absent `resdata` over a single trivial table. -/
def tcGet : TestCase :=
  ⟨"/items", "GET", "JSON", none, none, 200, none, [trivialTable]⟩

/-- Claim C1, as stated, evaluated at its failing input.  The not-expectation
check of `assertDB` compares the `values` ARRAY of the not-object with `===`
against the scalar cell (src line 263), which is false for every wrapped
value list and every cell, so the check never rejects: with expected
`not ("blocked")` for field `status` and actual `"blocked"`, the table
assertion passes, where the claim requires it to fail. -/
theorem not_expectation_never_fails :
    (∀ (values : List JSVal) (i : Nat) (key : String) (actual : JSVal),
      checkField i key (Expected.notValues values) actual = none) ∧
    assertTable [[("status", Restament.not [JSVal.str ("blocked")])]]
      [[("id", JSVal.num 1), ("status", JSVal.str ("blocked"))]] =
      AssertOutcome.pass := by
  constructor
  · intro values i key actual
    rfl
  · rfl

/-- Claim C3, evaluated at its failing input.  The reqformat validation of
`genReqBody` (src line 456) tests `opts.method === "JSON"` instead of
`opts.reqformat === "JSON"`; since the method of any call that reaches this
check is one of the seven body-carrying HTTP methods, the check throws for
every call with `reqformat = "JSON"`, contradicting both the claim and the
error message of the throw itself. -/
theorem reqformat_json_rejected (d : ReqData) (u : Option (List (String × String))) :
    genReqBody ⟨"POST", some d, "JSON", u⟩ =
      Except.error ("Argument opts.reqformat must be FORM or JSON") := by
  rfl

/-- Claim C2 counterexample: a GET test case expecting status 200 receives a
404 response whose body is not JSON.  The claim says such a run fails with
the status assertion error and that the body is never parsed; the code parses
the body inside `request` before `test()` ever compares the status, so the
run fails with the response-format rejection instead. -/
theorem status_mismatch_surfaces_as_format_error :
    (404 : Int) ≠ tcGet.status ∧
    runTest cfgOk collabOk ⟨404, "<html>", none⟩ tcGet =
      TestResult.formatError ("<html>") := by
  exact ⟨by decide, rfl⟩

/-- Claim C2, amended: the response body is parsed as JSON inside `request`
before `test()` checks the status.  When the body parses, a status mismatch
fails with the assertion error carrying both the expected and the observed
status; when the body does not parse, the run fails with the response-format
error even if the status also differs. -/
theorem status_check_after_body_parse (cfg : Config) (c : Collab)
    (tc : TestCase) (p : Prepared) (resp : HttpResponse)
    (hd : dispatchPhase cfg c tc = Except.ok p) :
    (resp.parsed = none →
      runTest cfg c resp tc = TestResult.formatError resp.bodyText) ∧
    (∀ j, resp.parsed = some j → resp.status ≠ tc.status →
      runTest cfg c resp tc = TestResult.statusError tc.status resp.status) := by
  have hrun : runTest cfg c resp tc = responsePhase cfg c tc resp := by
    unfold runTest
    rw [hd]
  constructor
  · intro hp
    rw [hrun]
    unfold responsePhase
    rw [hp]
  · intro j hp hne
    rw [hrun]
    unfold responsePhase
    rw [hp]
    simp only [if_pos hne]

/-- Witness for `status_check_after_body_parse` at a concrete input: a 404
response with a JSON body against an expected 200. -/
theorem status_check_after_body_parse_witness :
    runTest cfgOk collabOk ⟨404, "null", some Json.null⟩ tcGet =
      TestResult.statusError 200 404 :=
  (status_check_after_body_parse cfgOk collabOk tcGet
      ⟨HttpMethod.GET, RequestFormat.JSON, none, false⟩
      ⟨404, "null", some Json.null⟩ rfl).2 Json.null rfl (by decide)

/-- Deep strict equality against JSON `null` holds exactly for `null`. -/
theorem jsonBeq_null_iff (j : Json) : jsonBeq j Json.null = true ↔ j = Json.null := by
  cases j <;> simp [jsonBeq]

/-- Claim C5 counterexample: a test case whose `resdata` key is absent, with
the expected status observed, still fails when the response body is not JSON
— `request` parses every body regardless of `resdata` — while the same test
case passes once the body parses.  This contradicts the claim that with
`resdata` absent the test can pass regardless of the body content. -/
theorem resdata_absent_body_still_parsed :
    tcGet.resdata = none ∧
    runTest cfgOk collabOk ⟨200, "<html>", none⟩ tcGet =
      TestResult.formatError ("<html>") ∧
    runTest cfgOk collabOk ⟨200, "null", some Json.null⟩ tcGet =
      TestResult.pass := by
  exact ⟨rfl, rfl, rfl⟩

/-- Claim C5, amended: when `resdata` is absent the deep-equality body
assertion is skipped — any successfully parsed body yields the same outcome —
but the body is still parsed inside `request`, so a non-JSON body fails the
run even then; when `resdata` is explicitly `null`, the parsed body is
checked and must equal JSON `null`. -/
theorem resdata_absent_skipped_null_checked (cfg : Config) (c : Collab)
    (tc : TestCase) (p : Prepared) (resp : HttpResponse) (j : Json)
    (hd : dispatchPhase cfg c tc = Except.ok p)
    (hp : resp.parsed = some j)
    (hs : resp.status = tc.status) :
    (tc.resdata = none → runTest cfg c resp tc = statePhase cfg c tc) ∧
    (tc.resdata = some Json.null →
      (j = Json.null → runTest cfg c resp tc = statePhase cfg c tc) ∧
      (j ≠ Json.null → runTest cfg c resp tc = TestResult.resdataError)) := by
  have hrun : runTest cfg c resp tc = responsePhase cfg c tc resp := by
    unfold runTest
    rw [hd]
  rw [hrun]
  unfold responsePhase
  rw [hp]
  simp only [if_neg (not_not_intro hs)]
  constructor
  · intro hr
    rw [hr]
  · intro hr
    rw [hr]
    constructor
    · intro hj
      subst hj
      simp [jsonBeq]
    · intro hj
      have hb : jsonBeq j Json.null = false := by
        cases j <;> simp_all [jsonBeq]
      simp [hb]

/-- Witness for `resdata_absent_skipped_null_checked` at concrete inputs: a
test case with an explicit `null` expectation passes on body `null`. -/
theorem resdata_absent_skipped_null_checked_witness :
    runTest cfgOk collabOk ⟨200, "null", some Json.null⟩
      ⟨"/items", "GET", "JSON", none, none, 200, some Json.null, [trivialTable]⟩ =
      statePhase cfgOk collabOk
        ⟨"/items", "GET", "JSON", none, none, 200, some Json.null, [trivialTable]⟩ :=
  ((resdata_absent_skipped_null_checked cfgOk collabOk
      ⟨"/items", "GET", "JSON", none, none, 200, some Json.null, [trivialTable]⟩
      ⟨HttpMethod.GET, RequestFormat.JSON, none, false⟩
      ⟨200, "null", some Json.null⟩ Json.null rfl rfl rfl).2 rfl).1 rfl

/-- Collaborators whose database insert always rejects. -/
def failingInsertCollab : Collab :=
  ⟨fun _ _ => Except.error ("insert rejected"), fun _ _ => Except.ok (),
   fun _ => [], fun _ _ => true, fun _ => true⟩

/-- Table entry seeding one mock row. -/
def seedTable : DBTable :=
  ⟨"items", some ⟨[[("id", JSVal.num 1)]], none⟩, none⟩

/-- GET test case seeding one mock row. -/
def seedTc : TestCase :=
  ⟨"/items", "GET", "JSON", none, none, 200, none, [seedTable]⟩

/-- Claim C4, evaluated at its failing input.  `createMock` (src lines
381-420) starts the insert promises but discards the array produced by
`dbtables.map(...)`, so the enclosing `async` function resolves with
`undefined` immediately: the promise `test()` awaits is `ok` even though the
started insert rejected, and the run proceeds to dispatch the HTTP request
and reports the response-based outcome instead of the seeding failure. -/
theorem seed_failure_not_awaited :
    (createMock cfgOk failingInsertCollab [seedTable]).1 =
      [Except.error ("insert rejected")] ∧
    (createMock cfgOk failingInsertCollab [seedTable]).2 = Except.ok () ∧
    runTest cfgOk failingInsertCollab ⟨200, "null", some Json.null⟩ seedTc =
      TestResult.pass := by
  exact ⟨rfl, rfl, rfl⟩

/-- Sorting by ascending id yields a list sorted for the id order. -/
theorem sortById_sorted (l : List Row) :
    List.Sorted (fun r1 r2 : Row => rowId r1 ≤ rowId r2) (sortById l) := by
  haveI : IsTotal Row (fun r1 r2 : Row => rowId r1 ≤ rowId r2) :=
    ⟨fun a b => le_total (rowId a) (rowId b)⟩
  haveI : IsTrans Row (fun r1 r2 : Row => rowId r1 ≤ rowId r2) :=
    ⟨fun _ _ _ h1 h2 => le_trans h1 h2⟩
  exact List.sorted_insertionSort _ l

/-- Sorting by ascending id permutes the input. -/
theorem sortById_perm (l : List Row) : List.Perm (sortById l) l :=
  List.perm_insertionSort _ l

/-- With pairwise-distinct ids, a list sorted for the non-strict id order is
sorted for the strict one. -/
theorem sorted_lt_of_sorted_le_nodup {l : List Row}
    (hs : List.Sorted (fun r1 r2 : Row => rowId r1 ≤ rowId r2) l)
    (hn : (l.map rowId).Nodup) :
    List.Sorted (fun r1 r2 : Row => rowId r1 < rowId r2) l := by
  have hne : List.Pairwise (fun r1 r2 : Row => rowId r1 ≠ rowId r2) l :=
    List.pairwise_map.mp hn
  exact (hs.and hne).imp (fun h => lt_of_le_of_ne h.1 h.2)

/-- Sorting two permutations of the same multiset of rows with
pairwise-distinct ids gives the same list. -/
theorem sortById_eq_of_perm (rs rs' : List Row)
    (hperm : List.Perm rs' rs) (hids : (rs.map rowId).Nodup) :
    sortById rs' = sortById rs := by
  haveI : IsAntisymm Row (fun r1 r2 : Row => rowId r1 < rowId r2) :=
    ⟨fun a b h1 h2 => absurd (lt_trans h1 h2) (lt_irrefl _)⟩
  have hps : List.Perm (sortById rs') (sortById rs) :=
    ((sortById_perm rs').trans hperm).trans (sortById_perm rs).symm
  have hn2 : ((sortById rs).map rowId).Nodup :=
    (((sortById_perm rs).map rowId).nodup_iff).mpr hids
  have hn1 : ((sortById rs').map rowId).Nodup :=
    ((hps.map rowId).nodup_iff).mpr hn2
  exact List.eq_of_perm_of_sorted hps
    (sorted_lt_of_sorted_le_nodup (sortById_sorted rs') hn1)
    (sorted_lt_of_sorted_le_nodup (sortById_sorted rs) hn2)

/-- Claim C6: when the fetched rows carry pairwise-distinct numeric ids, the
row assertion of a table is invariant under any permutation of the fetched
rows — `assertDB` sorts them ascending by id (src lines 246-251) before
zipping positionally against the expected sequence. -/
theorem assertTable_perm_invariant (expectedData : List ExpectedRow)
    (rs rs' : List Row) (hperm : List.Perm rs' rs)
    (hids : (rs.map rowId).Nodup) :
    assertTable expectedData rs' = assertTable expectedData rs := by
  unfold assertTable
  rw [sortById_eq_of_perm rs rs' hperm hids]

/-- Witness for `assertTable_perm_invariant`: the spec's ordering example —
expected rows with ids 1 and 2 against fetched rows returned in the order
[id 2, id 1] — still passes. -/
theorem assertTable_perm_invariant_witness :
    assertTable
      [[("id", Expected.lit (JSVal.num 1))], [("id", Expected.lit (JSVal.num 2))]]
      [[("id", JSVal.num 2)], [("id", JSVal.num 1)]] =
    assertTable
      [[("id", Expected.lit (JSVal.num 1))], [("id", Expected.lit (JSVal.num 2))]]
      [[("id", JSVal.num 1)], [("id", JSVal.num 2)]] ∧
    assertTable
      [[("id", Expected.lit (JSVal.num 1))], [("id", Expected.lit (JSVal.num 2))]]
      [[("id", JSVal.num 1)], [("id", JSVal.num 2)]] = AssertOutcome.pass :=
  ⟨assertTable_perm_invariant
      [[("id", Expected.lit (JSVal.num 1))], [("id", Expected.lit (JSVal.num 2))]]
      [[("id", JSVal.num 1)], [("id", JSVal.num 2)]]
      [[("id", JSVal.num 2)], [("id", JSVal.num 1)]]
      (List.Perm.swap [("id", JSVal.num 1)] [("id", JSVal.num 2)] [])
      (by decide),
   rfl⟩

/-- Claim C7 counterexample: a GET test case with `reqformat = "JSON"` and a
non-empty `uploads` mapping dispatches the request and completes — `test()`
skips body construction entirely for GET (src lines 183-184) — so "fails
with a configuration error and no network call" does not hold for every test
case with JSON format and non-empty uploads. -/
theorem json_uploads_get_still_dispatches :
    (⟨"/items", "GET", "JSON", none, some [("file", "/tmp/a.png")], 200, none,
      [trivialTable]⟩ : TestCase).reqformat = "JSON" ∧
    (⟨"/items", "GET", "JSON", none, some [("file", "/tmp/a.png")], 200, none,
      [trivialTable]⟩ : TestCase).uploads = some [("file", "/tmp/a.png")] ∧
    runTest cfgOk collabOk ⟨200, "null", some Json.null⟩
      ⟨"/items", "GET", "JSON", none, some [("file", "/tmp/a.png")], 200, none,
        [trivialTable]⟩ = TestResult.pass := by
  exact ⟨rfl, rfl, rfl⟩

/-- Claim C7, amended: for every test case with a recognized NON-GET method,
`reqformat = "JSON"` and uploads present, building the request body fails
with a configuration error and no network call is performed (the outcome is
fixed before the response exists — it does not depend on the response at
all).  The error raised is the reqformat-validation error of src line 456
(or the missing-reqdata error when `reqdata` is also absent), not the
dedicated uploads-with-JSON error, which sits in unreachable code. -/
theorem json_uploads_fail_before_dispatch (cfg : Config) (c : Collab)
    (tc : TestCase)
    (hm : tc.method = "POST" ∨ tc.method = "PUT" ∨ tc.method = "PATCH" ∨
      tc.method = "DELETE" ∨ tc.method = "HEAD" ∨ tc.method = "OPTIONS" ∨
      tc.method = "CONNECT")
    (hf : tc.reqformat = "JSON")
    (hdirs : truthy cfg.uploadDir = true ∧ truthy cfg.logDir = true)
    (hu : tc.uploads.isSome = true) :
    (∃ msg, dispatchPhase cfg c tc = Except.error (TestResult.configError msg)) ∧
    ∀ resp resp' : HttpResponse, runTest cfg c resp tc = runTest cfg c resp' tc := by
  have hpre : uploadsPrecheck cfg tc.db = none := by
    unfold uploadsPrecheck
    simp [hdirs.1, hdirs.2]
  obtain ⟨url, method, reqformat, reqdata, uploads, status, resdata, db⟩ := tc
  simp only at hm hf hpre
  subst hf
  rcases hm with h|h|h|h|h|h|h <;> subst h <;>
    exact ⟨⟨(match reqdata with
        | none => "Argument opts.reqdata is undefined"
        | some _ => "Argument opts.reqformat must be FORM or JSON"), by
        rcases reqdata with _ | d <;>
          simp [dispatchPhase, hpre, createMock, genReqBody, parseReqformat,
            parseMethod]⟩,
      fun resp resp' => by
        rcases reqdata with _ | d <;>
          simp [runTest, dispatchPhase, hpre, createMock, genReqBody, parseReqformat,
            parseMethod]⟩

/-- Witness for `json_uploads_fail_before_dispatch`: a POST test case with
JSON format and one upload has a response-independent outcome. -/
theorem json_uploads_fail_before_dispatch_witness :
    runTest cfgOk collabOk ⟨404, "<html>", none⟩
      ⟨"/items", "POST", "JSON", some [], some [("file", "/tmp/a.png")], 200,
        none, [trivialTable]⟩ =
    runTest cfgOk collabOk ⟨200, "null", some Json.null⟩
      ⟨"/items", "POST", "JSON", some [], some [("file", "/tmp/a.png")], 200,
        none, [trivialTable]⟩ :=
  (json_uploads_fail_before_dispatch cfgOk collabOk
      ⟨"/items", "POST", "JSON", some [], some [("file", "/tmp/a.png")], 200,
        none, [trivialTable]⟩
      (Or.inl rfl) rfl ⟨rfl, rfl⟩ rfl).2
    ⟨404, "<html>", none⟩ ⟨200, "null", some Json.null⟩

/-- Claim C8: for every GET test case (with a recognized reqformat and both
directories configured), the dispatch succeeds with a `null` request body —
`genReqBody` is never consulted on the GET path — and `genReqBody` itself
rejects every GET call with its internal bug-guard error (src lines
438-440), so the GET error branch is unreachable from `test()`. -/
theorem get_never_builds_body (cfg : Config) (c : Collab) (tc : TestCase)
    (hm : tc.method = "GET")
    (hf : tc.reqformat = "FORM" ∨ tc.reqformat = "JSON")
    (hdirs : truthy cfg.uploadDir = true ∧ truthy cfg.logDir = true) :
    (∃ rf, dispatchPhase cfg c tc =
      Except.ok ⟨HttpMethod.GET, rf, none, tc.uploads.isSome⟩) ∧
    ∀ (d : Option ReqData) (f : String) (u : Option (List (String × String))),
      genReqBody ⟨"GET", d, f, u⟩ = Except.error getBugMessage := by
  have hpre : uploadsPrecheck cfg tc.db = none := by
    unfold uploadsPrecheck
    simp [hdirs.1, hdirs.2]
  obtain ⟨url, method, reqformat, reqdata, uploads, status, resdata, db⟩ := tc
  simp only at hm hf hpre ⊢
  subst hm
  rcases hf with h|h <;> subst h
  · refine ⟨⟨RequestFormat.Form, ?_⟩, fun d f u => rfl⟩
    simp [dispatchPhase, hpre, createMock, parseReqformat, parseMethod]
  · refine ⟨⟨RequestFormat.JSON, ?_⟩, fun d f u => rfl⟩
    simp [dispatchPhase, hpre, createMock, parseReqformat, parseMethod]

/-- Witness for `get_never_builds_body`: concrete GET call of `genReqBody`
rejected by the internal guard. -/
theorem get_never_builds_body_witness :
    genReqBody ⟨"GET", some [], "JSON", none⟩ = Except.error getBugMessage :=
  (get_never_builds_body cfgOk collabOk tcGet rfl (Or.inr rfl)
    ⟨rfl, rfl⟩).2 (some []) "JSON" none

/-- Lookup in an encoded `reqdata` map: with pairwise-distinct keys, the
field appended for key `k` is the encoding of the value stored at `k`,
whatever parts follow the encoded map. -/
theorem lookup_encoded_reqdata (d : ReqData) (rest : List (String × FormPart))
    (k : String) (v : ReqValue)
    (hk : (d.map Prod.fst).Nodup) (hmem : (k, v) ∈ d) :
    List.lookup k ((d.map (fun kv => (kv.1, formEncodeValue kv.2))) ++ rest) =
      some (formEncodeValue v) := by
  induction d with
  | nil => cases hmem
  | cons kv tl ih =>
    obtain ⟨k1, v1⟩ := kv
    simp only [List.map_cons, List.nodup_cons, List.mem_map] at hk
    by_cases hkk : k = k1
    · subst hkk
      rcases List.mem_cons.mp hmem with heq | htl
      · injection heq with h1 h2
        subst h2
        simp [List.lookup]
      · exact absurd ⟨(k, v), htl, rfl⟩ hk.1
    · rcases List.mem_cons.mp hmem with heq | htl
      · injection heq with h1 h2
        exact absurd h1 hkk
      · have hbeq : (k == k1) = false := beq_eq_false_iff_ne.mpr hkk
        simpa [List.lookup, hbeq] using ih hk.2 htl

/-- Claim C9: in FORM encoding with pairwise-distinct `reqdata` keys, every
sequence-valued entry is appended as a single field holding the elements
comma-joined (src line 470), every scalar-valued entry is appended unchanged,
and reading the built body back at such a key yields the joined string — a
single string field, not a sequence. -/
theorem form_encoding_joins_sequences (method : String) (d : ReqData)
    (u : Option (List (String × String)))
    (hm : method = "POST" ∨ method = "PUT" ∨ method = "PATCH" ∨
      method = "DELETE" ∨ method = "HEAD" ∨ method = "OPTIONS" ∨
      method = "CONNECT")
    (hk : (d.map Prod.fst).Nodup) :
    ∃ parts, genReqBody ⟨method, some d, "FORM", u⟩ =
        Except.ok (ReqBody.form parts) ∧
      (∀ k vs, (k, ReqValue.arr vs) ∈ d →
        List.lookup k parts =
          some (FormPart.field (JSVal.str (joinComma vs)))) ∧
      (∀ k v, (k, ReqValue.scalar v) ∈ d →
        List.lookup k parts = some (FormPart.field v)) := by
  have hgen : ∃ rest, genReqBody ⟨method, some d, "FORM", u⟩ =
      Except.ok (ReqBody.form
        ((d.map (fun kv => (kv.1, formEncodeValue kv.2))) ++ rest)) := by
    rcases hm with h|h|h|h|h|h|h <;> subst h
    · exact ⟨(match u with
        | some ups => ups.map (fun kv => (kv.1, FormPart.fileStream kv.2))
        | none => []), by simp [genReqBody]⟩
    · exact ⟨(match u with
        | some ups => ups.map (fun kv => (kv.1, FormPart.fileStream kv.2))
        | none => []), by simp [genReqBody]⟩
    · exact ⟨[], by simp [genReqBody]⟩
    · exact ⟨[], by simp [genReqBody]⟩
    · exact ⟨[], by simp [genReqBody]⟩
    · exact ⟨[], by simp [genReqBody]⟩
    · exact ⟨[], by simp [genReqBody]⟩
  obtain ⟨rest, hrest⟩ := hgen
  refine ⟨_, hrest, ?_, ?_⟩
  · intro k vs hmem
    exact lookup_encoded_reqdata d rest k (ReqValue.arr vs) hk hmem
  · intro k v hmem
    exact lookup_encoded_reqdata d rest k (ReqValue.scalar v) hk hmem

/-- Witness for `form_encoding_joins_sequences`: a POST body with a
sequence-valued field `tags` and a scalar field `name`. -/
theorem form_encoding_joins_sequences_witness :
    ∃ parts, genReqBody
        ⟨"POST",
         some [("tags", ReqValue.arr [JSVal.str ("a"), JSVal.str ("b")]),
               ("name", ReqValue.scalar (JSVal.str ("x")))],
         "FORM", none⟩ = Except.ok (ReqBody.form parts) ∧
      List.lookup ("tags") parts =
        some (FormPart.field (JSVal.str ("a,b"))) ∧
      List.lookup ("name") parts = some (FormPart.field (JSVal.str ("x"))) := by
  obtain ⟨parts, h1, h2, h3⟩ := form_encoding_joins_sequences ("POST")
    [("tags", ReqValue.arr [JSVal.str ("a"), JSVal.str ("b")]),
     ("name", ReqValue.scalar (JSVal.str ("x")))] none (Or.inl rfl) (by decide)
  exact ⟨parts, h1,
    by simpa using h2 ("tags") [JSVal.str ("a"), JSVal.str ("b")] (by simp),
    h3 ("name") (JSVal.str ("x")) (by simp)⟩

/-- Claim C10 counterexample: a table with two fetched rows against one
expected row does NOT always crash — when a field of the first (in-bounds)
row already mismatches, the loop rejects with an assertion error before ever
reading the nonexistent expected row, so the claimed universal crash on
surplus fetched rows fails. -/
theorem surplus_after_failure_no_crash :
    ([[("id", JSVal.num 1), ("a", JSVal.num 2)],
      [("id", JSVal.num 2), ("a", JSVal.num 3)]] : List Row).length >
      ([[("a", Expected.lit (JSVal.num 1))]] : List ExpectedRow).length ∧
    assertTable [[("a", Expected.lit (JSVal.num 1))]]
      [[("id", JSVal.num 1), ("a", JSVal.num 2)],
       [("id", JSVal.num 2), ("a", JSVal.num 3)]] ≠ AssertOutcome.crash := by
  exact ⟨by decide, by decide⟩

/-- Unfolding of the record loop when the expected index is out of bounds. -/
theorem checkRows_cons_none (e : List ExpectedRow) (i : Nat) (r : Row)
    (rs : List Row) (hi : e[i]? = none) :
    checkRows e i (r :: rs) = AssertOutcome.crash := by
  simp [checkRows, hi]

/-- Unfolding of the record loop when the current row fails a field check. -/
theorem checkRows_cons_fail (e : List ExpectedRow) (i : Nat) (r : Row)
    (er : ExpectedRow) (m : String) (rs : List Row)
    (hi : e[i]? = some er) (hc : checkRow i er r = some m) :
    checkRows e i (r :: rs) = AssertOutcome.fail m := by
  simp [checkRows, hi, hc]

/-- Unfolding of the record loop when the current row passes its checks. -/
theorem checkRows_cons_step (e : List ExpectedRow) (i : Nat) (r : Row)
    (er : ExpectedRow) (rs : List Row)
    (hi : e[i]? = some er) (hc : checkRow i er r = none) :
    checkRows e i (r :: rs) = checkRows e (i + 1) rs := by
  simp [checkRows, hi, hc]

/-- Splitting the record loop: once the loop passes over a list of leading
records, running it over an extended list continues at the shifted index. -/
theorem checkRows_append_pass (e : List ExpectedRow) (l1 l2 : List Row)
    (i : Nat) (hp : checkRows e i l1 = AssertOutcome.pass) :
    checkRows e i (l1 ++ l2) = checkRows e (i + l1.length) l2 := by
  induction l1 generalizing i with
  | nil => simp [checkRows]
  | cons r rs ih =>
    rw [List.cons_append]
    cases he : e[i]? with
    | none =>
      rw [checkRows_cons_none e i r rs he] at hp
      cases hp
    | some er =>
      cases hc : checkRow i er r with
      | some m =>
        rw [checkRows_cons_fail e i r er m rs he hc] at hp
        cases hp
      | none =>
        rw [checkRows_cons_step e i r er rs he hc] at hp
        rw [checkRows_cons_step e i r er (rs ++ l2) he hc]
        rw [ih (i + 1) hp]
        congr 1
        simp only [List.length_cons]
        omega

/-- The record loop only reads expected rows at indices below `i` plus the
number of remaining records, so truncating the expected list beyond that
bound does not change the outcome. -/
theorem checkRows_take (e : List ExpectedRow) (n : Nat) (l : List Row)
    (i : Nat) (hle : i + l.length ≤ n) :
    checkRows (e.take n) i l = checkRows e i l := by
  induction l generalizing i with
  | nil => rfl
  | cons r rs ih =>
    have hi : i < n := by
      simp only [List.length_cons] at hle
      omega
    have he2 : (e.take n)[i]? = e[i]? := by
      rw [List.getElem?_take]
      simp [hi]
    cases he : e[i]? with
    | none =>
      rw [checkRows_cons_none _ _ _ _ (he2.trans he), checkRows_cons_none _ _ _ _ he]
    | some er =>
      cases hc : checkRow i er r with
      | some m =>
        rw [checkRows_cons_fail _ _ _ _ _ _ (he2.trans he) hc,
          checkRows_cons_fail _ _ _ _ _ _ he hc]
      | none =>
        rw [checkRows_cons_step _ _ _ _ _ (he2.trans he) hc,
          checkRows_cons_step _ _ _ _ _ he hc]
        exact ih (i + 1) (by
          simp only [List.length_cons] at hle
          omega)

/-- Claim C10, amended: the record loop of `assertDB` (src lines 257-282)
indexes the expected rows positionally with no bounds or length check.  When
the fetched rows outnumber the expected rows AND every check on the common
positions passes, the loop reads the nonexistent expected row and crashes
(the JS `TypeError` of enumerating `undefined`) instead of reporting an
assertion error — an earlier failing field short-circuits first, which is
the one correction to the claim.  When the fetched rows are fewer, the
surplus expected rows are silently never checked: the outcome equals that of
the expected list truncated to the fetched count, so a row-count mismatch is
never itself reported. -/
theorem row_assertion_unbounded (e : List ExpectedRow) (rs : List Row) :
    (e.length < rs.length →
      checkRows e 0 ((sortById rs).take e.length) = AssertOutcome.pass →
      assertTable e rs = AssertOutcome.crash) ∧
    (rs.length < e.length →
      assertTable e rs = assertTable (e.take rs.length) rs) := by
  have hlen : (sortById rs).length = rs.length := (sortById_perm rs).length_eq
  constructor
  · intro hlt hp
    unfold assertTable
    have hsplit : sortById rs =
        (sortById rs).take e.length ++ (sortById rs).drop e.length :=
      (List.take_append_drop _ _).symm
    rw [hsplit, checkRows_append_pass e _ _ 0 hp]
    have htk : ((sortById rs).take e.length).length = e.length := by
      rw [List.length_take]
      omega
    rw [htk, Nat.zero_add]
    have hpos : 0 < ((sortById rs).drop e.length).length := by
      rw [List.length_drop]
      omega
    cases hd : (sortById rs).drop e.length with
    | nil =>
      rw [hd] at hpos
      cases hpos
    | cons d ds =>
      exact checkRows_cons_none _ _ _ _ (List.getElem?_eq_none (le_refl e.length))
  · intro hlt
    unfold assertTable
    exact (checkRows_take e rs.length (sortById rs) 0 (by simp [hlen])).symm

/-- Witness for `row_assertion_unbounded`: one passing expected row against
two fetched rows crashes; two expected rows against one matching fetched row
behaves as if the second expected row did not exist. -/
theorem row_assertion_unbounded_witness :
    assertTable [[("id", Expected.lit (JSVal.num 1))]]
      [[("id", JSVal.num 1)], [("id", JSVal.num 2)]] = AssertOutcome.crash ∧
    assertTable
      [[("id", Expected.lit (JSVal.num 1))], [("id", Expected.lit (JSVal.num 2))]]
      [[("id", JSVal.num 1)]] =
    assertTable
      (([[("id", Expected.lit (JSVal.num 1))],
         [("id", Expected.lit (JSVal.num 2))]] : List ExpectedRow).take 1)
      [[("id", JSVal.num 1)]] :=
  ⟨(row_assertion_unbounded [[("id", Expected.lit (JSVal.num 1))]]
      [[("id", JSVal.num 1)], [("id", JSVal.num 2)]]).1 (by decide) (by decide),
   (row_assertion_unbounded
      [[("id", Expected.lit (JSVal.num 1))], [("id", Expected.lit (JSVal.num 2))]]
      [[("id", JSVal.num 1)]]).2 (by decide)⟩
